import Mathlib

/-!
Shallow embedding of the Paperwork job scheduler
(`src/paperwork/frontend/jobs.py`) and of the generic priority queue
(`src/paperwork/frontend/util/__init__.py`).

Modelling conventions:

* Python object identity (`__eq__` defined as `self is other` on `Job` and
  `JobFactory`) is modelled by giving each object a unique `ref : Nat` token;
  structural equality of the Lean records coincides with Python `is` as long
  as distinct objects carry distinct `ref` tokens, which every concrete state
  built below respects.
* Machine time (`time.time()`) is an external input; timestamps are passed to
  the embedded functions as rational parameters.
* The Python standard library `heapq` functions are modelled semantically:
  the heap is the list of its entries, `heapq.heappush` adds the entry, and
  `heapq.heappop` removes and returns a least entry under Python's
  lexicographic tuple order.  Every tuple pushed by the scheduler and by
  `PriorityQueue` is `(-priority, idx, element)` with a fresh `idx` drawn
  from a monotone counter, so all keys are distinct, the minimum is unique,
  and the pop sequence of the model is exactly that of CPython's binary heap.
  (`heappush` keeps the list in push order; CPython's sift-up also leaves a
  new largest key at the end, so the concrete list layouts evaluated below
  coincide with CPython's.)
* `do()` raising is modelled by the field `do_result : Except String Unit`;
  the traceback that `traceback.extract_tb` would produce for that failure is
  the field `fail_trace`.
-/

namespace Paperwork

/-- Stack frame as produced by `traceback.extract_stack` / `extract_tb`:
filename, line number, function name (the fourth component, the source text,
is never read by the code modelled here). -/
structure Frame where
  filename : String
  line : Nat
  funcName : String
deriving DecidableEq

/-- Python errors that the embedded scheduler code can raise:
`assert` failures (`JobScheduler.start` lines 122-123, `JobScheduler.stop`
lines 275-276) and the `NameError` raised by `JobScheduler.cancel`
(jobs.py line 263-264, see `JobScheduler.cancel` below). -/
inductive PyError where
  | assertionError
  | nameError (missingName : String)
deriving DecidableEq

/-- `JobFactory` (jobs.py lines 29-39): a name and an identity token.
`__eq__` is `self is other`; identity is modelled by the `ref` token.
The `id_generator` used by concrete factories to number their jobs is not
needed by any claim and is left out. -/
structure JobFactory where
  ref : Nat
  name : String
deriving DecidableEq

instance {ε α : Type} [DecidableEq ε] [DecidableEq α] :
    DecidableEq (Except ε α) :=
  fun a b =>
    match a, b with
    | .ok x, .ok y =>
      if h : x = y then isTrue (by rw [h])
      else isFalse (fun hc => h (Except.ok.inj hc))
    | .ok _, .error _ => isFalse (fun h => Except.noConfusion h)
    | .error _, .ok _ => isFalse (fun h => Except.noConfusion h)
    | .error x, .error y =>
      if h : x = y then isTrue (by rw [h])
      else isFalse (fun hc => h (Except.error.inj hc))

/-- `Job` (jobs.py lines 42-102).  `ref` models object identity
(`__eq__` is `self is other`).  `do_result` is the outcome of `do()`:
`Except.ok ()` when it returns, `Except.error exc` when it raises the
exception whose text is `exc`; `fail_trace` is the traceback
`traceback.extract_tb` yields for that failure.  `started_by` is the
submission-site stack stored by `JobScheduler.schedule` (line 225). -/
structure Job where
  ref : Nat
  factory : JobFactory
  id : Nat
  priority : Int
  can_stop : Bool
  do_result : Except String Unit
  fail_trace : List Frame
  started_by : List Frame
deriving DecidableEq

namespace Job

/-- `Job.MAX_TIME_FOR_UNSTOPPABLE_JOB = 0.5` seconds (jobs.py line 43). -/
def MAX_TIME_FOR_UNSTOPPABLE_JOB : Rat := 1 / 2

/-- `Job.MAX_TIME_TO_STOP = 0.5` seconds (jobs.py line 44). -/
def MAX_TIME_TO_STOP : Rat := 1 / 2

end Job

/-- A heap entry: the tuple `(-priority, idx, element)` pushed by
`JobScheduler.schedule` (lines 229-231, 238-240) and by
`PriorityQueue.add` (util/__init__.py lines 153-156). -/
abbrev Entry (α : Type) : Type := Int × Nat × α

/-- The comparison key of an entry: Python compares the tuples
lexicographically and, because the `idx` components are pairwise distinct,
never reaches the third component. -/
def ekey (e : Entry α) : Int × Nat := (e.1, e.2.1)

/-- Lexicographic order on entry keys, as Python tuple comparison gives it. -/
def keyLe (a b : Int × Nat) : Prop :=
  a.1 < b.1 ∨ (a.1 = b.1 ∧ a.2 ≤ b.2)

instance (a b : Int × Nat) : Decidable (keyLe a b) := by
  unfold keyLe; infer_instance

/-- Model of `heapq.heappush` (see the module docstring): the heap is the
list of its entries in push order. -/
def heappush (heap : List (Entry α)) (e : Entry α) : List (Entry α) :=
  heap ++ [e]

/-- Model of `heapq.heappop`: remove and return a least entry under the
lexicographic key order (see the module docstring; keys are distinct in
every use below, so this is exactly CPython's behaviour). -/
def heappop : List (Entry α) → Option (Entry α × List (Entry α))
  | [] => none
  | e :: rest =>
    match heappop rest with
    | none => some (e, [])
    | some (m, rest') =>
      if keyLe (ekey e) (ekey m) then some (e, rest) else some (m, e :: rest')

/-- Entry order induced by the key order: ascending `-priority` (that is,
descending priority), then ascending submission index. -/
def entryLe (a b : Entry α) : Prop := keyLe (ekey a) (ekey b)

/-- Fueled pop-everything loop: the order in which repeated `heappop` calls
drain a heap list. -/
def drainAux : Nat → List (Entry α) → List (Entry α)
  | 0, _ => []
  | n + 1, l =>
    match heappop l with
    | none => []
    | some (m, r) => m :: drainAux n r

/-- The sequence of entries obtained by popping a heap until empty. -/
def drain (l : List (Entry α)) : List (Entry α) :=
  drainAux l.length l

/-- Observable actions of the scheduler: log lines it emits and the two
semantic actions the claims talk about (a `stop` request delivered to a job,
and a return of a job's `do()` on the worker thread). -/
inductive Event where
  /-- `active_job.stop(will_resume=...)` was called (jobs.py line 201). -/
  | stopRequested (jobRef : Nat) (will_resume : Bool)
  /-- warning that the active job cannot be stopped (lines 203-206). -/
  | warningCannotStop (jobRef : Nat)
  /-- the active job's `do()` call returned on the worker thread (line 155);
  for a stoppable job that was asked to stop this is the early return. -/
  | didJob (jobRef : Nat)
  /-- first error line of the failure handler (lines 157-159). -/
  | errorJobRaised (factoryName : String) (jobId : Nat) (exc : String)
  /-- one error line per frame of the failure traceback (lines 160-165). -/
  | errorTraceFrame (pos : Nat) (fr : Frame)
  /-- the `was started by` error line (lines 166-167). -/
  | errorStartedBy (factoryName : String) (jobId : Nat)
  /-- one error line per frame of `started_by` (lines 168-173). -/
  | errorStartedByFrame (pos : Nat) (fr : Frame)
  /-- the debug duration line (lines 179-180); `ms` is `diff * 1000`. -/
  | debugJobTook (factoryName : String) (jobId : Nat) (ms : Rat)
  /-- the over-budget warning (lines 181-185). -/
  | warningUnstoppableTook (factoryName : String) (jobId : Nat)
      (ms maxMs : Rat)
  /-- warning that stopping took too long (lines 212-217). -/
  | warningTookToStop (jobRef : Nat) (ms maxMs : Rat)
  /-- the `Job ... halted` debug line (lines 218-219). -/
  | debugJobHalted (jobRef : Nat)
deriving DecidableEq

/-- The error log block the worker emits when `do()` raises
(jobs.py lines 157-173): the job identity with the exception, the frames of
the failure traceback, then the submission-site frames from `started_by`. -/
def errLogs (j : Job) (exc : String) : List Event :=
  Event.errorJobRaised j.factory.name j.id exc
    :: ((j.fail_trace.enum.map fun p => Event.errorTraceFrame p.1 p.2)
        ++ Event.errorStartedBy j.factory.name j.id
        :: (j.started_by.enum.map fun p => Event.errorStartedByFrame p.1 p.2))

/-- `JobScheduler` state (jobs.py lines 106-118): `thread_present` models
`_thread is not None`, `job_idx_gen` the next value of
`_job_idx_generator`, and `job_queue` the `_job_queue` heap list. -/
structure SchedState where
  name : String
  running : Bool
  thread_present : Bool
  job_queue : List (Entry Job)
  active_job : Option Job
  job_idx_gen : Nat
deriving DecidableEq

namespace JobScheduler

/-- `JobScheduler.__init__` (jobs.py lines 106-118). -/
def init (name : String) : SchedState :=
  { name := name
    running := false
    thread_present := false
    job_queue := []
    active_job := none
    job_idx_gen := 0 }

/-- `JobScheduler.start` (jobs.py lines 120-127): asserts that the scheduler
is not running and has no thread, then spawns the worker and sets
`running`.  An `assert` failure is a raised `AssertionError`. -/
def start (st : SchedState) : Except PyError SchedState :=
  if st.running then Except.error PyError.assertionError
  else if st.thread_present then Except.error PyError.assertionError
  else Except.ok { st with running := true, thread_present := true }

/-- `JobScheduler.stop` (jobs.py lines 274-290): asserts that the scheduler
is running and has a thread, clears `running`, wakes and joins the worker
(the worker exits its wait loop without touching the queue), and drops the
thread.  Pending queue entries are left in place, never to run. -/
def stop (st : SchedState) : Except PyError SchedState :=
  if !st.running then Except.error PyError.assertionError
  else if !st.thread_present then Except.error PyError.assertionError
  else Except.ok { st with running := false, thread_present := false }

/-- One pop of the worker loop (jobs.py lines 134-142): take the least heap
entry and make its job the active job.  The real worker blocks on the
condition while the queue is empty; the model returns `none` there. -/
def worker_pop (st : SchedState) : Option SchedState :=
  match heappop st.job_queue with
  | none => none
  | some (e, rest) =>
    some { st with job_queue := rest, active_job := some e.2.2 }

/-- The tail of one worker iteration (jobs.py lines 151-192): run the active
job's `do()` with the exception handler of lines 154-173, then the timing
classification of lines 174-185 with `t0 = start`, `t1 = stop` sampled from
`time.time()` — note line 176 computes `diff = start - stop` — and finally
clear `active_job` and notify all waiters (lines 187-192). -/
def run_finish_active (st : SchedState) (t0 t1 : Rat) :
    SchedState × List Event :=
  match st.active_job with
  | none => (st, [])
  | some j =>
    let errEvs : List Event :=
      match j.do_result with
      | Except.ok _ => []
      | Except.error exc => errLogs j exc
    let diff : Rat := t0 - t1
    let timeEvs : List Event :=
      if j.can_stop = true ∨ diff ≤ Job.MAX_TIME_FOR_UNSTOPPABLE_JOB then
        [Event.debugJobTook j.factory.name j.id (diff * 1000)]
      else
        [Event.warningUnstoppableTook j.factory.name j.id (diff * 1000)
          (Job.MAX_TIME_FOR_UNSTOPPABLE_JOB * 1000)]
    ({ st with active_job := none },
      Event.didJob j.ref :: (errEvs ++ timeEvs))

/-- `JobScheduler._stop_active_job` (jobs.py lines 197-219).  If the active
job is stoppable its `stop(will_resume=...)` is called, otherwise a warning
is logged; then the caller waits on the condition until the worker clears
`_active_job` (lines 207-209).  The wait releases the queue lock, so the
worker's in-progress iteration finishes — its `do()` returns (early for a
stoppable job that honoured the stop request, after running to completion
otherwise), its logs are emitted, and `_active_job` is cleared (lines
151-192); the model applies `run_finish_active` at that point and resumes
the caller the instant the slot is vacated.  `rt` are the `time.time()`
samples around the job's `do()` call, `wt` those around the wait (lines
207, 210).  Called with `active_job = None` the Python code would raise
an `AttributeError` on line 200; no caller does so (lines 236, 257). -/
def stop_active_job (st : SchedState) (will_resume : Bool)
    (rt wt : Rat × Rat) : SchedState × List Event :=
  match st.active_job with
  | none => (st, [])
  | some active =>
    let evs1 : List Event :=
      if active.can_stop then [Event.stopRequested active.ref will_resume]
      else [Event.warningCannotStop active.ref]
    let pr := run_finish_active st rt.1 rt.2
    let diff : Rat := wt.2 - wt.1
    let evs3 : List Event :=
      if active.can_stop = true ∧ diff > Job.MAX_TIME_TO_STOP then
        [Event.warningTookToStop active.ref (diff * 1000)
          (Job.MAX_TIME_TO_STOP * 1000)]
      else []
    (pr.1, evs1 ++ pr.2 ++ evs3 ++ [Event.debugJobHalted active.ref])

/-- `JobScheduler.schedule` (jobs.py lines 221-243): store the caller's
stack in `started_by` (line 225), push `(-priority, next(idx), job)` (lines
229-231), and if a strictly lower-priority job is active, stop it and push
it back with its priority and a fresh index (lines 235-240).  `cs` is the
stack `traceback.extract_stack()` captures at the call site. -/
def schedule (st : SchedState) (job : Job) (cs : List Frame)
    (rt wt : Rat × Rat) : SchedState × List Event :=
  let job' : Job := { job with started_by := cs }
  let st1 : SchedState :=
    { st with
      job_queue := heappush st.job_queue (-job'.priority, st.job_idx_gen, job')
      job_idx_gen := st.job_idx_gen + 1 }
  match st1.active_job with
  | some active =>
    if active.priority < job'.priority then
      let pr := stop_active_job st1 true rt wt
      ({ pr.1 with
          job_queue :=
            heappush pr.1.job_queue (-active.priority, pr.1.job_idx_gen, active)
          job_idx_gen := pr.1.job_idx_gen + 1 },
        pr.2)
    else (st1, [])
  | none => (st1, [])

/-- `JobScheduler.schedule` performs no precondition check: its body (jobs.py
lines 221-243) contains no `assert` and no `raise`, so wrapped in the error
monad it always returns `ok`.  This wrapper makes that explicit for
comparison with `start` and `stop`. -/
def scheduleE (st : SchedState) (job : Job) (cs : List Frame)
    (rt wt : Rat × Rat) : Except PyError (SchedState × List Event) :=
  Except.ok (schedule st job cs rt wt)

/-- Python `list.remove`: delete the first element equal to `x`.  (CPython
raises `ValueError` when `x` is absent; the single caller below only removes
an element it just read from the list, so the element is always present and
the total function is equivalent there.) -/
def list_remove [DecidableEq α] : List α → α → List α
  | [], _ => []
  | y :: ys, x => if y = x then ys else y :: list_remove ys x

/-- The `for job in self._job_queue: ... self._job_queue.remove(job)` loop of
`JobScheduler._cancel_matching_jobs` (jobs.py lines 249-253), with Python's
iterator semantics: the iterator yields the element at its internal index
and then increments the index, so a removal at the current position shifts
the remaining elements left and the next yield skips one.  Fueled by
`queue.length - i`, which never falls below the remaining iteration count
(each step raises `i` by one and never lengthens the list), so the fueled
loop exits exactly when `i` reaches the current length, as Python's does.
The `logger.debug` of lines 252-253 (which formats `job[1]`, the sequence
number) and the `except ValueError: pass` of lines 254-255 (unreachable,
since the removed element was just read from the list) are not modelled. -/
def cancel_loop_aux (cond : Job → Bool) :
    Nat → List (Entry Job) → Nat → List (Entry Job)
  | 0, queue, _ => queue
  | n + 1, queue, i =>
    if h : i < queue.length then
      let e := queue.get ⟨i, h⟩
      if cond e.2.2 then cancel_loop_aux cond n (list_remove queue e) (i + 1)
      else cancel_loop_aux cond n queue (i + 1)
    else queue

/-- The removal loop of `_cancel_matching_jobs`, started at index `i`. -/
def cancel_loop (cond : Job → Bool) (queue : List (Entry Job)) (i : Nat) :
    List (Entry Job) :=
  cancel_loop_aux cond (queue.length - i) queue i

/-- `JobScheduler._cancel_matching_jobs` (jobs.py lines 245-260): run the
removal loop over the queue, then, if a matching job is active, request it
to stop with `will_resume=False`. -/
def cancel_matching_jobs (st : SchedState) (cond : Job → Bool)
    (rt wt : Rat × Rat) : SchedState × List Event :=
  let st1 : SchedState := { st with job_queue := cancel_loop cond st.job_queue 0 }
  match st1.active_job with
  | some a =>
    if cond a then stop_active_job st1 false rt wt else (st1, [])
  | none => (st1, [])

/-- `JobScheduler.cancel` (jobs.py lines 262-266).  Line 263-264 formats
`str(job)`, but no name `job` is bound in the function (the parameter is
`target_job`) nor at module scope, so CPython raises
`NameError: global name 'job' is not defined` while building the log
message, before `_cancel_matching_jobs` is ever called. -/
def cancel (_st : SchedState) (_target_job : Job) :
    Except PyError (SchedState × List Event) :=
  Except.error (PyError.nameError "job")

/-- The body `JobScheduler.cancel` would run after its logging line (jobs.py
lines 265-266) if the `NameError` slip were fixed: cancel every queue entry
whose job is the target (`Job.__eq__` is identity, modelled by record
equality with unique `ref` tokens). -/
def cancel_body (st : SchedState) (target_job : Job) (rt wt : Rat × Rat) :
    SchedState × List Event :=
  cancel_matching_jobs st (fun j => j == target_job) rt wt

/-- `JobScheduler.cancel_all` (jobs.py lines 268-272): cancel every job whose
factory is the given factory (`JobFactory.__eq__` is identity). -/
def cancel_all (st : SchedState) (factory : JobFactory) (rt wt : Rat × Rat) :
    SchedState × List Event :=
  cancel_matching_jobs st (fun j => j.factory == factory) rt wt

/-- The worker loop run until the queue is empty (jobs.py lines 132-195 with
`running` held true and no concurrent producer): each iteration pops the
least entry into `active_job` and finishes it with `run_finish_active`.
Fueled by the queue length, which bounds the number of iterations.  `t0`,
`t1` are the `time.time()` samples of each iteration. -/
def run_all_aux : Nat → SchedState → Rat → Rat → List Event
  | 0, _, _, _ => []
  | n + 1, st, t0, t1 =>
    match heappop st.job_queue with
    | none => []
    | some (e, rest) =>
      let st1 : SchedState :=
        { st with job_queue := rest, active_job := some e.2.2 }
      let pr := run_finish_active st1 t0 t1
      pr.2 ++ run_all_aux n pr.1 t0 t1

/-- All events the worker emits while draining the queue. -/
def run_all (st : SchedState) (t0 t1 : Rat) : List Event :=
  run_all_aux st.job_queue.length st t0 t1

end JobScheduler

/-- The refs of the jobs whose `do()` returned, in order, read off a trace. -/
def executedRefs (evs : List Event) : List Nat :=
  evs.filterMap fun ev =>
    match ev with
    | Event.didJob r => some r
    | _ => none

/-- A scheduler state whose only content is an active job; used to read the
event block a worker iteration emits for that job. -/
def probeState (j : Job) : SchedState :=
  { name := ""
    running := true
    thread_present := true
    job_queue := []
    active_job := some j
    job_idx_gen := 0 }

/-- The events one worker iteration emits for job `j` with `time.time()`
samples `t0`, `t1`: exactly the event component of `run_finish_active`. -/
def jobEvents (j : Job) (t0 t1 : Rat) : List Event :=
  (JobScheduler.run_finish_active (probeState j) t0 t1).2

/-- The event trace of running the given entries in order, one worker
iteration each. -/
def blocks : List (Entry Job) → Rat → Rat → List Event
  | [], _, _ => []
  | e :: rest, t0, t1 => jobEvents e.2.2 t0 t1 ++ blocks rest t0 t1

/-! Concrete factories, jobs and states used by the witness and
counterexample theorems below. -/

/-- A sample factory. -/
def factoryA : JobFactory := { ref := 1, name := "render" }

/-- A second, distinct sample factory. -/
def factoryB : JobFactory := { ref := 2, name := "index" }

/-- A stoppable priority-0 job. -/
def jobA : Job :=
  { ref := 11, factory := factoryA, id := 0, priority := 0, can_stop := true
    do_result := Except.ok (), fail_trace := [], started_by := [] }

/-- A non-stoppable priority-5 job. -/
def jobB : Job :=
  { ref := 12, factory := factoryA, id := 1, priority := 5, can_stop := false
    do_result := Except.ok (), fail_trace := [], started_by := [] }

/-- A non-stoppable priority-0 job. -/
def jobC : Job :=
  { ref := 13, factory := factoryA, id := 2, priority := 0, can_stop := false
    do_result := Except.ok (), fail_trace := [], started_by := [] }

/-- A sample submission-site stack frame. -/
def frameMain : Frame := { filename := "paperwork.py", line := 57, funcName := "main" }

/-- A sample failure-traceback frame. -/
def frameDo : Frame := { filename := "docsearch.py", line := 92, funcName := "index_page" }

/-- A job whose `do()` raises. -/
def jobFail : Job :=
  { ref := 14, factory := factoryB, id := 0, priority := 0, can_stop := false
    do_result := Except.error "ZeroDivisionError: integer division or modulo by zero"
    fail_trace := [frameDo], started_by := [frameMain] }

/-- A job whose `do()` returns normally, queued behind `jobFail`. -/
def jobOk : Job :=
  { ref := 15, factory := factoryB, id := 1, priority := 0, can_stop := false
    do_result := Except.ok (), fail_trace := [], started_by := [] }

/-- First of three same-factory jobs for the `cancel_all` test. -/
def jF0 : Job :=
  { ref := 21, factory := factoryB, id := 2, priority := 0, can_stop := false
    do_result := Except.ok (), fail_trace := [], started_by := [] }

/-- Second of three same-factory jobs for the `cancel_all` test. -/
def jF1 : Job :=
  { ref := 22, factory := factoryB, id := 3, priority := 0, can_stop := false
    do_result := Except.ok (), fail_trace := [], started_by := [] }

/-- Third of three same-factory jobs for the `cancel_all` test. -/
def jF2 : Job :=
  { ref := 23, factory := factoryB, id := 4, priority := 0, can_stop := false
    do_result := Except.ok (), fail_trace := [], started_by := [] }

/-- A started scheduler with `j` active, an empty queue, and one sequence
number already consumed. -/
def stActive (j : Job) : SchedState :=
  { name := "main", running := true, thread_present := true
    job_queue := [], active_job := some j, job_idx_gen := 1 }

/-- A started scheduler with `jobFail` then `jobOk` queued and idle worker. -/
def stFail : SchedState :=
  { name := "main", running := true, thread_present := true
    job_queue := [(0, 0, jobFail), (0, 1, jobOk)], active_job := none
    job_idx_gen := 2 }

/-- A started scheduler with the three `factoryB` jobs queued, none active. -/
def stThree : SchedState :=
  { name := "main", running := true, thread_present := true
    job_queue := [(0, 0, jF0), (0, 1, jF1), (0, 2, jF2)], active_job := none
    job_idx_gen := 3 }

/-- A started scheduler with only `jobA` queued. -/
def stWithQueue : SchedState :=
  { name := "main", running := true, thread_present := true
    job_queue := [(0, 0, jobA)], active_job := none, job_idx_gen := 1 }

/-- A scheduler that has been started and has done nothing else. -/
def stStarted : SchedState :=
  { JobScheduler.init "main" with running := true, thread_present := true }

/-- The sample queue for the ordering witness: `jobA` at priority 0 pushed
first, `jobB` at priority 5 pushed second. -/
def lC2 : List (Entry Job) := [(0, 0, jobA), (-5, 1, jobB)]

/-- State after scheduling `jobA` on a fresh scheduler and letting the worker
pop it: `jobA` active, queue empty, one sequence number consumed. -/
def stPop7 : SchedState :=
  (JobScheduler.worker_pop
    (JobScheduler.schedule (JobScheduler.init "main") jobA [] (0, 0) (0, 0)).1).getD
    (JobScheduler.init "main")

/-- State after additionally scheduling the higher-priority `jobB`, which
preempts the active `jobA`. -/
def preemptPost : SchedState :=
  (JobScheduler.schedule stPop7 jobB [] (0, 0) (0, 0)).1

/-- `PriorityQueue` (util/__init__.py lines 140-174): a heap list of
`(-priority, idx, element)` entries and the `__last_idx` counter. -/
structure PriorityQueue (α : Type) where
  last_idx : Nat
  elements : List (Entry α)
deriving DecidableEq

namespace PriorityQueue

/-- `PriorityQueue.__init__` (lines 142-144). -/
def empty : PriorityQueue α := { last_idx := 0, elements := [] }

/-- `PriorityQueue.purge` (lines 146-147). -/
def purge (q : PriorityQueue α) : PriorityQueue α := { q with elements := [] }

/-- `PriorityQueue.add` (lines 149-157): push `(-priority, __last_idx,
element)` and increment the counter.  Elements with a higher priority are
returned first. -/
def add (q : PriorityQueue α) (priority : Int) (element : α) :
    PriorityQueue α :=
  { last_idx := q.last_idx + 1
    elements := heappush q.elements (-priority, q.last_idx, element) }

/-- A queue built by a sequence of `add` calls on a fresh queue; `ps` lists
the `(priority, element)` arguments in call order. -/
def ofAddSeq (ps : List (Int × α)) : PriorityQueue α :=
  ps.foldl (fun q p => q.add p.1 p.2) empty

end PriorityQueue

/-- `PriorityQueueIter` (util/__init__.py lines 121-137): constructed from a
copy of the heap list (`self.queue = queue[:]`, line 128) so iterating never
touches the queue it came from. -/
structure PriorityQueueIter (α : Type) where
  queue : List (Entry α)

namespace PriorityQueueIter

/-- `PriorityQueue.__iter__` (lines 170-171) hands the iterator a copy of
`self.elements`. -/
def ofQueue (q : PriorityQueue α) : PriorityQueueIter α := { queue := q.elements }

/-- `PriorityQueueIter.next` (lines 130-134): pop the least entry of the
private copy and return its element; `IndexError` on the empty list becomes
`StopIteration`, modelled as `none`. -/
def next (it : PriorityQueueIter α) : Option (α × PriorityQueueIter α) :=
  match heappop it.queue with
  | none => none
  | some (e, rest) => some (e.2.2, { queue := rest })

/-- Run the iterator to `StopIteration`, fueled by the list length. -/
def toEndAux : Nat → PriorityQueueIter α → List α
  | 0, _ => []
  | n + 1, it =>
    match next it with
    | none => []
    | some (x, it') => x :: toEndAux n it'

/-- The full element sequence an iteration over the queue produces. -/
def toEnd (it : PriorityQueueIter α) : List α :=
  toEndAux it.queue.length it

end PriorityQueueIter

/-- A complete `for` loop over a `PriorityQueue`: build the iterator from the
queue and exhaust it; the queue itself is returned as the loop leaves it. -/
def PriorityQueue.iterAll (q : PriorityQueue α) :
    List α × PriorityQueue α :=
  (PriorityQueueIter.toEnd (PriorityQueueIter.ofQueue q), q)

theorem keyLe_total (a b : Int × Nat) : keyLe a b ∨ keyLe b a := by
  unfold keyLe; omega

theorem keyLe_trans {a b c : Int × Nat} (h1 : keyLe a b) (h2 : keyLe b c) :
    keyLe a c := by
  unfold keyLe at *; omega


theorem heappop_nil : heappop ([] : List (Entry α)) = none := rfl

theorem heappop_eq_none_iff {l : List (Entry α)} :
    heappop l = none ↔ l = [] := by
  constructor
  · intro h
    cases l with
    | nil => rfl
    | cons e rest =>
      cases hrest : heappop rest with
      | none =>
        simp [heappop, hrest] at h
      | some p =>
        obtain ⟨m1, r1⟩ := p
        by_cases hle : keyLe (ekey e) (ekey m1) <;>
          simp [heappop, hrest, hle] at h
  · intro h; subst h; rfl

theorem heappop_perm {l : List (Entry α)} {m : Entry α} {r : List (Entry α)}
    (h : heappop l = some (m, r)) : List.Perm (m :: r) l := by
  induction l generalizing m r with
  | nil => simp [heappop] at h
  | cons e rest ih =>
    cases hrest : heappop rest with
    | none =>
      obtain rfl : rest = [] := heappop_eq_none_iff.mp hrest
      simp only [heappop, hrest] at h
      cases h
      exact List.Perm.refl _
    | some p =>
      obtain ⟨m1, r1⟩ := p
      have hp := ih (m := m1) (r := r1) hrest
      by_cases hle : keyLe (ekey e) (ekey m1)
      · simp only [heappop, hrest, if_pos hle] at h
        cases h
        exact List.Perm.refl _
      · simp only [heappop, hrest, if_neg hle] at h
        injection h with h'
        injection h' with hA hB
        subst hA
        subst hB
        exact List.Perm.trans (List.Perm.swap e m1 r1) (List.Perm.cons e hp)

theorem heappop_min {l : List (Entry α)} {m : Entry α} {r : List (Entry α)}
    (h : heappop l = some (m, r)) : ∀ x ∈ r, keyLe (ekey m) (ekey x) := by
  induction l generalizing m r with
  | nil => simp [heappop] at h
  | cons e rest ih =>
    cases hrest : heappop rest with
    | none =>
      simp only [heappop, hrest] at h
      cases h
      intro x hx
      simp at hx
    | some p =>
      obtain ⟨m1, r1⟩ := p
      have hmin := ih (m := m1) (r := r1) hrest
      have hperm := heappop_perm (l := rest) hrest
      by_cases hle : keyLe (ekey e) (ekey m1)
      · simp only [heappop, hrest, if_pos hle] at h
        cases h
        intro x hx
        have hx2 : x ∈ m1 :: r1 := (List.Perm.mem_iff hperm).mpr hx
        rcases List.mem_cons.mp hx2 with h1 | h2
        · subst h1; exact hle
        · exact keyLe_trans hle (hmin x h2)
      · simp only [heappop, hrest, if_neg hle] at h
        injection h with h'
        injection h' with hA hB
        subst hA
        subst hB
        intro x hx
        rcases List.mem_cons.mp hx with h1 | h2
        · subst h1
          rcases keyLe_total (ekey m1) (ekey x) with hc | hc
          · exact hc
          · exact (hle hc).elim
        · exact hmin x h2

theorem heappop_length {l : List (Entry α)} {m : Entry α} {r : List (Entry α)}
    (h : heappop l = some (m, r)) : r.length + 1 = l.length := by
  have := List.Perm.length_eq (heappop_perm h)
  simpa using this


theorem drainAux_perm_sorted :
    ∀ (n : Nat) (l : List (Entry α)), l.length ≤ n →
      List.Perm (drainAux n l) l ∧ List.Sorted entryLe (drainAux n l) := by
  intro n
  induction n with
  | zero =>
    intro l hl
    have : l = [] := List.eq_nil_of_length_eq_zero (Nat.le_zero.mp hl)
    subst this
    exact ⟨List.Perm.refl _, List.sorted_nil⟩
  | succ n ih =>
    intro l hl
    cases hpop : heappop l with
    | none =>
      obtain rfl : l = [] := heappop_eq_none_iff.mp hpop
      exact ⟨by simp [drainAux, hpop], by simp [drainAux, hpop]⟩
    | some p =>
      obtain ⟨m, r⟩ := p
      have hlen : r.length + 1 = l.length := heappop_length hpop
      have hr : r.length ≤ n := by omega
      obtain ⟨hperm, hsorted⟩ := ih r hr
      have hmin := heappop_min hpop
      have hd : drainAux (n + 1) l = m :: drainAux n r := by
        simp [drainAux, hpop]
      rw [hd]
      constructor
      · exact List.Perm.trans (List.Perm.cons m hperm) (heappop_perm hpop)
      · rw [List.sorted_cons]
        refine ⟨?_, hsorted⟩
        intro b hb
        exact hmin b ((List.Perm.mem_iff hperm).mp hb)

theorem drain_perm (l : List (Entry α)) : List.Perm (drain l) l :=
  (drainAux_perm_sorted l.length l (Nat.le_refl _)).1

theorem drain_sorted (l : List (Entry α)) : List.Sorted entryLe (drain l) :=
  (drainAux_perm_sorted l.length l (Nat.le_refl _)).2


theorem toEndAux_eq_drainAux (n : Nat) :
    ∀ l : List (Entry α),
      PriorityQueueIter.toEndAux n { queue := l } =
        (drainAux n l).map (fun e => e.2.2) := by
  induction n with
  | zero => intro l; rfl
  | succ n ih =>
    intro l
    cases hpop : heappop l with
    | none =>
      simp [PriorityQueueIter.toEndAux, PriorityQueueIter.next, drainAux, hpop]
    | some p =>
      obtain ⟨e, rest⟩ := p
      simp [PriorityQueueIter.toEndAux, PriorityQueueIter.next, drainAux, hpop,
        ih rest]

/-- Iterating a `PriorityQueue` yields exactly the drain order of its heap
list, projected to the elements. -/
theorem iterAll_eq_drain (q : PriorityQueue α) :
    (PriorityQueue.iterAll q).1 = (drain q.elements).map (fun e => e.2.2) := by
  show PriorityQueueIter.toEndAux q.elements.length { queue := q.elements } = _
  exact toEndAux_eq_drainAux q.elements.length q.elements

theorem run_finish_active_eq (st : SchedState) (j : Job) (t0 t1 : Rat)
    (h : st.active_job = some j) :
    JobScheduler.run_finish_active st t0 t1 =
      ({ st with active_job := none }, jobEvents j t0 t1) := by
  simp only [jobEvents, probeState, JobScheduler.run_finish_active, h]

theorem run_all_aux_eq (t0 t1 : Rat) :
    ∀ (n : Nat) (st : SchedState),
      JobScheduler.run_all_aux n st t0 t1 =
        blocks (drainAux n st.job_queue) t0 t1 := by
  intro n
  induction n with
  | zero => intro st; rfl
  | succ n ih =>
    intro st
    cases hpop : heappop st.job_queue with
    | none =>
      simp [JobScheduler.run_all_aux, drainAux, hpop, blocks]
    | some p =>
      obtain ⟨e, rest⟩ := p
      have h1 :
          ({ st with job_queue := rest, active_job := some e.2.2 } :
            SchedState).active_job = some e.2.2 := rfl
      simp only [JobScheduler.run_all_aux, drainAux, hpop, blocks,
        run_finish_active_eq _ _ t0 t1 h1, ih]

/-- The full worker trace is the concatenation of per-job blocks in drain
order. -/
theorem run_all_eq_blocks (st : SchedState) (t0 t1 : Rat) :
    JobScheduler.run_all st t0 t1 = blocks (drain st.job_queue) t0 t1 :=
  run_all_aux_eq t0 t1 st.job_queue.length st

/-- The timing log of one worker iteration for job `j` (jobs.py 174-185). -/
theorem jobEvents_def (j : Job) (t0 t1 : Rat) :
    jobEvents j t0 t1 =
      Event.didJob j.ref ::
        ((match j.do_result with
          | Except.ok _ => ([] : List Event)
          | Except.error exc => errLogs j exc) ++
         (if j.can_stop = true ∨ t0 - t1 ≤ Job.MAX_TIME_FOR_UNSTOPPABLE_JOB then
            [Event.debugJobTook j.factory.name j.id ((t0 - t1) * 1000)]
          else
            [Event.warningUnstoppableTook j.factory.name j.id ((t0 - t1) * 1000)
              (Job.MAX_TIME_FOR_UNSTOPPABLE_JOB * 1000)])) := rfl

theorem executedRefs_errLogs (j : Job) (exc : String) :
    executedRefs (errLogs j exc) = [] := by
  rw [executedRefs, List.filterMap_eq_nil_iff]
  intro a ha
  rw [errLogs] at ha
  rcases List.mem_cons.mp ha with rfl | ha
  · rfl
  rcases List.mem_append.mp ha with ha | ha
  · obtain ⟨p, hp, rfl⟩ := List.mem_map.mp ha
    rfl
  rcases List.mem_cons.mp ha with rfl | ha
  · rfl
  obtain ⟨p, hp, rfl⟩ := List.mem_map.mp ha
  rfl

theorem executedRefs_didJob_cons (r : Nat) (l : List Event) :
    executedRefs (Event.didJob r :: l) = r :: executedRefs l := rfl

theorem executedRefs_append (l1 l2 : List Event) :
    executedRefs (l1 ++ l2) = executedRefs l1 ++ executedRefs l2 := by
  simp [executedRefs]

theorem executedRefs_jobEvents (j : Job) (t0 t1 : Rat) :
    executedRefs (jobEvents j t0 t1) = [j.ref] := by
  rw [jobEvents_def, executedRefs_didJob_cons, executedRefs_append]
  have hm : executedRefs
      (match j.do_result with
        | Except.ok _ => ([] : List Event)
        | Except.error exc => errLogs j exc) = [] := by
    cases j.do_result with
    | ok u => rfl
    | error exc => exact executedRefs_errLogs j exc
  have hi : executedRefs
      (if j.can_stop = true ∨ t0 - t1 ≤ Job.MAX_TIME_FOR_UNSTOPPABLE_JOB then
        [Event.debugJobTook j.factory.name j.id ((t0 - t1) * 1000)]
      else
        [Event.warningUnstoppableTook j.factory.name j.id ((t0 - t1) * 1000)
          (Job.MAX_TIME_FOR_UNSTOPPABLE_JOB * 1000)]) = [] := by
    by_cases hc : j.can_stop = true ∨ t0 - t1 ≤ Job.MAX_TIME_FOR_UNSTOPPABLE_JOB
    · rw [if_pos hc]; rfl
    · rw [if_neg hc]; rfl
  rw [hm, hi]
  rfl

theorem executedRefs_blocks (l : List (Entry Job)) (t0 t1 : Rat) :
    executedRefs (blocks l t0 t1) = l.map (fun e => e.2.2.ref) := by
  induction l with
  | nil => rfl
  | cons e rest ih =>
    simp [blocks, executedRefs_append, executedRefs_jobEvents, ih]

theorem errLogs_infix_jobEvents (j : Job) (exc : String) (t0 t1 : Rat)
    (h : j.do_result = Except.error exc) :
    List.IsInfix (errLogs j exc) (jobEvents j t0 t1) := by
  refine ⟨[Event.didJob j.ref],
    (if j.can_stop = true ∨ t0 - t1 ≤ Job.MAX_TIME_FOR_UNSTOPPABLE_JOB then
      [Event.debugJobTook j.factory.name j.id ((t0 - t1) * 1000)]
    else
      [Event.warningUnstoppableTook j.factory.name j.id ((t0 - t1) * 1000)
        (Job.MAX_TIME_FOR_UNSTOPPABLE_JOB * 1000)]), ?_⟩
  rw [jobEvents_def, h]
  rfl

theorem jobEvents_infix_blocks {x : Entry Job} {l : List (Entry Job)}
    (hx : x ∈ l) (t0 t1 : Rat) :
    List.IsInfix (jobEvents x.2.2 t0 t1) (blocks l t0 t1) := by
  induction l with
  | nil => simp at hx
  | cons e rest ih =>
    rcases List.mem_cons.mp hx with h1 | h2
    · subst h1
      exact ⟨[], blocks rest t0 t1, by simp [blocks]⟩
    · obtain ⟨s, t, hst⟩ := ih h2
      exact ⟨jobEvents e.2.2 t0 t1 ++ s, t, by
        simp [blocks, ← hst, List.append_assoc]⟩

theorem foldl_add_elements (ps : List (Int × α)) :
    ∀ q : PriorityQueue α,
      (ps.foldl (fun q p => q.add p.1 p.2) q).elements =
        q.elements ++ ((List.enumFrom q.last_idx ps).map
          fun p => ((-(p.2.1) : Int), p.1, p.2.2)) := by
  induction ps with
  | nil => intro q; simp
  | cons p rest ih =>
    intro q
    simp only [List.foldl_cons, List.enumFrom, List.map_cons]
    rw [ih]
    simp [PriorityQueue.add, heappush, List.append_assoc]

/-- The heap list of a queue built by `add` calls lists the added elements in
call order, with `idx` equal to the call position and first component the
negated priority. -/
theorem ofAddSeq_elements (ps : List (Int × α)) :
    (PriorityQueue.ofAddSeq ps).elements =
      ps.enum.map (fun p => ((-(p.2.1) : Int), p.1, p.2.2)) := by
  have h := foldl_add_elements ps PriorityQueue.empty
  simpa [PriorityQueue.ofAddSeq, PriorityQueue.empty, List.enum] using h

/-- Structural form of `schedule` on the preemption path (jobs.py lines
235-240): the new job is pushed with the current sequence number, the
preempted job's `do()` finishes during the wait, and the preempted job is
pushed back with its own priority and the next sequence number. -/
theorem schedule_preempt_eq (st : SchedState) (a j : Job) (cs : List Frame)
    (rt wt : Rat × Rat) (ha : st.active_job = some a)
    (hlt : a.priority < j.priority) :
    JobScheduler.schedule st j cs rt wt =
      ({ st with
          job_queue :=
            heappush
              (heappush st.job_queue
                (-j.priority, st.job_idx_gen, { j with started_by := cs }))
              (-a.priority, st.job_idx_gen + 1, a)
          active_job := none
          job_idx_gen := st.job_idx_gen + 2 },
        (if a.can_stop then [Event.stopRequested a.ref true]
         else [Event.warningCannotStop a.ref]) ++
          jobEvents a rt.1 rt.2 ++
          (if a.can_stop = true ∧ wt.2 - wt.1 > Job.MAX_TIME_TO_STOP then
            [Event.warningTookToStop a.ref ((wt.2 - wt.1) * 1000)
              (Job.MAX_TIME_TO_STOP * 1000)]
          else []) ++
          [Event.debugJobHalted a.ref]) := by
  simp only [JobScheduler.schedule, ha]
  rw [if_pos hlt]
  simp only [JobScheduler.stop_active_job]
  rw [run_finish_active_eq _ a rt.1 rt.2 rfl]

/-- Structural form of `schedule` when no preemption happens: active job of
priority at least the new job's (jobs.py line 236 false). -/
theorem schedule_no_preempt_eq (st : SchedState) (a j : Job) (cs : List Frame)
    (rt wt : Rat × Rat) (ha : st.active_job = some a)
    (hge : ¬a.priority < j.priority) :
    JobScheduler.schedule st j cs rt wt =
      ({ st with
          job_queue :=
            heappush st.job_queue (-j.priority, st.job_idx_gen,
              { j with started_by := cs })
          job_idx_gen := st.job_idx_gen + 1 }, []) := by
  simp only [JobScheduler.schedule, ha]
  rw [if_neg hge]

/-- C2: for every multiset of jobs inserted into the scheduler's pending
queue as `(-priority, idx, job)` entries (and likewise for the generic
`PriorityQueue`), the dequeue order obtained by popping the heap until empty
is a permutation of the queue, totally ordered with primary key descending
priority and secondary key ascending submission sequence, so among jobs of
equal priority the execution order equals the submission order. -/
theorem queue_drain_priority_fifo (l : List (Entry Job))
    (hwf : ∀ e ∈ l, e.1 = -e.2.2.priority) :
    List.Perm (drain l) l ∧
      List.Sorted (fun e1 e2 : Entry Job =>
        e2.2.2.priority < e1.2.2.priority ∨
          (e1.2.2.priority = e2.2.2.priority ∧ e1.2.1 ≤ e2.2.1)) (drain l) := by
  refine ⟨drain_perm l, ?_⟩
  have hmem : ∀ e ∈ drain l, e.1 = -e.2.2.priority := fun e he =>
    hwf e ((List.Perm.mem_iff (drain_perm l)).mp he)
  refine List.Pairwise.imp_of_mem ?_ (drain_sorted l)
  intro a b hadr hbdr hab
  have h1 := hmem a hadr
  have h2 := hmem b hbdr
  simp only [entryLe, keyLe, ekey] at hab
  omega

/-- Witness for C2: the two-entry queue `lC2` (priority 0 pushed first,
priority 5 pushed second) drains as a sorted permutation of itself. -/
theorem queue_drain_priority_fifo_witness :
    List.Perm (drain lC2) lC2 ∧
      List.Sorted (fun e1 e2 : Entry Job =>
        e2.2.2.priority < e1.2.2.priority ∨
          (e1.2.2.priority = e2.2.2.priority ∧ e1.2.1 ≤ e2.2.1)) (drain lC2) :=
  queue_drain_priority_fifo lC2 (by decide)

/-- C9: for every sequence of `add` calls on a fresh `PriorityQueue`,
iterating the queue yields its elements in descending-priority,
insertion-order-among-equals order (the heap list records each element with
its insertion position as `idx` and its negated priority as first key, the
iteration equals the drain of that list, and the drain is a sorted
permutation of it), and the iteration is a non-destructive snapshot: the
queue the loop leaves behind is the queue it started from. -/
theorem priority_queue_iter_snapshot (ps : List (Int × α)) :
    (PriorityQueue.iterAll (PriorityQueue.ofAddSeq ps)).2 =
        PriorityQueue.ofAddSeq ps
    ∧ (PriorityQueue.iterAll (PriorityQueue.ofAddSeq ps)).1 =
        (drain (PriorityQueue.ofAddSeq ps).elements).map (fun e => e.2.2)
    ∧ (PriorityQueue.ofAddSeq ps).elements =
        ps.enum.map (fun p => ((-(p.2.1) : Int), p.1, p.2.2))
    ∧ List.Perm (drain (PriorityQueue.ofAddSeq ps).elements)
        (PriorityQueue.ofAddSeq ps).elements
    ∧ List.Sorted (fun e1 e2 : Entry α =>
        -e2.1 < -e1.1 ∨ (-e1.1 = -e2.1 ∧ e1.2.1 ≤ e2.2.1))
        (drain (PriorityQueue.ofAddSeq ps).elements) := by
  refine ⟨rfl, iterAll_eq_drain _, ofAddSeq_elements ps, drain_perm _, ?_⟩
  refine List.Pairwise.imp ?_ (drain_sorted _)
  intro a b hab
  simp only [entryLe, keyLe, ekey] at hab
  omega

/-- C3: for every pending queue, the worker loop executes every queued job
in drain order whatever the jobs' `do()` outcomes are — a raising job never
prevents later jobs from running — and for each job whose `do()` raises,
the trace contains (contiguously) the error block logging the job identity
with the error, the failure stack trace, and the submission-time stack
trace. -/
theorem run_loop_failure_isolation (st : SchedState) (t0 t1 : Rat) :
    executedRefs (JobScheduler.run_all st t0 t1) =
        (drain st.job_queue).map (fun e => e.2.2.ref)
    ∧ ∀ e ∈ st.job_queue, ∀ exc, e.2.2.do_result = Except.error exc →
        List.IsInfix (errLogs e.2.2 exc) (JobScheduler.run_all st t0 t1) := by
  constructor
  · rw [run_all_eq_blocks, executedRefs_blocks]
  · intro e he exc herr
    have hmem : e ∈ drain st.job_queue :=
      (List.Perm.mem_iff (drain_perm st.job_queue)).mpr he
    rw [run_all_eq_blocks]
    exact List.IsInfix.trans (errLogs_infix_jobEvents e.2.2 exc t0 t1 herr)
      (jobEvents_infix_blocks hmem t0 t1)

/-- Witness for C3: with `jobFail` (raising `do()`) queued ahead of `jobOk`,
both jobs run, in order, and the full error block for `jobFail` appears in
the trace. -/
theorem run_loop_failure_isolation_witness :
    executedRefs (JobScheduler.run_all stFail 0 0) = [jobFail.ref, jobOk.ref]
    ∧ List.IsInfix
        (errLogs jobFail
          "ZeroDivisionError: integer division or modulo by zero")
        (JobScheduler.run_all stFail 0 0) := by
  constructor
  · rw [(run_loop_failure_isolation stFail 0 0).1]
    decide
  · exact (run_loop_failure_isolation stFail 0 0).2 (0, 0, jobFail)
      (by decide) _ (by decide)

/-- C1: when `schedule(new_job)` finds a stoppable active job of strictly
lower priority, it requests that job to stop with `will_resume=True`, blocks
until the active slot is vacated (the post state has no active job), and
re-pushes the preempted job with its original, unchanged priority (under a
fresh sequence number); when the active job's priority is greater than or
equal to the new job's, no stop request is made — the call emits no events
at all — and the active job stays in place. -/
theorem schedule_preemption_policy (st : SchedState) (a j : Job)
    (cs : List Frame) (rt wt : Rat × Rat)
    (ha : st.active_job = some a) (hs : a.can_stop = true) :
    (a.priority < j.priority →
      Event.stopRequested a.ref true ∈ (JobScheduler.schedule st j cs rt wt).2
      ∧ (JobScheduler.schedule st j cs rt wt).1.active_job = none
      ∧ (-a.priority, st.job_idx_gen + 1, a) ∈
          (JobScheduler.schedule st j cs rt wt).1.job_queue)
    ∧ (j.priority ≤ a.priority →
      (JobScheduler.schedule st j cs rt wt).2 = []
      ∧ (JobScheduler.schedule st j cs rt wt).1.active_job = some a) := by
  constructor
  · intro hlt
    rw [schedule_preempt_eq st a j cs rt wt ha hlt]
    refine ⟨?_, rfl, ?_⟩
    · simp [hs]
    · simp [heappush]
  · intro hge
    rw [schedule_no_preempt_eq st a j cs rt wt ha (not_lt.mpr hge)]
    exact ⟨rfl, ha⟩

/-- Witness for C1: stoppable `jobA` active; the higher-priority `jobB`
preempts it, the equal-priority `jobC` does not. -/
theorem schedule_preemption_policy_witness :
    (Event.stopRequested jobA.ref true ∈
        (JobScheduler.schedule (stActive jobA) jobB [] (0, 0) (0, 0)).2
      ∧ (JobScheduler.schedule (stActive jobA) jobB [] (0, 0) (0, 0)).1.active_job
          = none
      ∧ (-jobA.priority, (2 : Nat), jobA) ∈
          (JobScheduler.schedule (stActive jobA) jobB [] (0, 0) (0, 0)).1.job_queue)
    ∧ ((JobScheduler.schedule (stActive jobA) jobC [] (0, 0) (0, 0)).2 = []
      ∧ (JobScheduler.schedule (stActive jobA) jobC [] (0, 0) (0, 0)).1.active_job
          = some jobA) :=
  ⟨(schedule_preemption_policy (stActive jobA) jobA jobB [] (0, 0) (0, 0)
      rfl rfl).1 (by decide),
   (schedule_preemption_policy (stActive jobA) jobA jobC [] (0, 0) (0, 0)
      rfl rfl).2 (by decide)⟩

/-- C10: when `schedule(new_job)` finds a non-stoppable active job of
strictly lower priority, it warns that the job cannot be stopped, blocks
until that job has run to completion (the job's `do()` return is part of
the trace of the `schedule` call itself), re-pushes the already-completed
job into the pending queue, and a subsequent drain of the queue executes
the job's `do()` a second time. -/
theorem nonstoppable_preemption_reruns (st : SchedState) (a j : Job)
    (cs : List Frame) (rt wt : Rat × Rat) (t0 t1 : Rat)
    (ha : st.active_job = some a) (hcs : a.can_stop = false)
    (hlt : a.priority < j.priority) :
    Event.warningCannotStop a.ref ∈ (JobScheduler.schedule st j cs rt wt).2
    ∧ Event.didJob a.ref ∈ (JobScheduler.schedule st j cs rt wt).2
    ∧ (-a.priority, st.job_idx_gen + 1, a) ∈
        (JobScheduler.schedule st j cs rt wt).1.job_queue
    ∧ a.ref ∈ executedRefs
        (JobScheduler.run_all (JobScheduler.schedule st j cs rt wt).1 t0 t1) := by
  rw [schedule_preempt_eq st a j cs rt wt ha hlt]
  refine ⟨?_, ?_, ?_, ?_⟩
  · simp [hcs]
  · simp [hcs, jobEvents_def]
  · simp [heappush]
  · rw [run_all_eq_blocks, executedRefs_blocks]
    refine List.mem_map.mpr ⟨(-a.priority, st.job_idx_gen + 1, a), ?_, rfl⟩
    refine (List.Perm.mem_iff (drain_perm _)).mpr ?_
    simp [heappush]

/-- Witness for C10: non-stoppable priority-0 `jobC` active, priority-5
`jobB` scheduled. -/
theorem nonstoppable_preemption_reruns_witness :
    Event.warningCannotStop jobC.ref ∈
        (JobScheduler.schedule (stActive jobC) jobB [] (0, 0) (0, 0)).2
    ∧ Event.didJob jobC.ref ∈
        (JobScheduler.schedule (stActive jobC) jobB [] (0, 0) (0, 0)).2
    ∧ (-jobC.priority, (2 : Nat), jobC) ∈
        (JobScheduler.schedule (stActive jobC) jobB [] (0, 0) (0, 0)).1.job_queue
    ∧ jobC.ref ∈ executedRefs
        (JobScheduler.run_all
          (JobScheduler.schedule (stActive jobC) jobB [] (0, 0) (0, 0)).1 0 0) :=
  nonstoppable_preemption_reruns (stActive jobC) jobC jobB [] (0, 0) (0, 0) 0 0
    rfl rfl (by decide)

/-- C7 counterexample: on a fresh scheduler, `jobA` is queued with sequence
number 0 and becomes active; scheduling the higher-priority `jobB` re-queues
the preempted `jobA` under the fresh sequence number 2, and no entry with
the original sequence number 0 remains — the claim that the original
submission sequence is preserved is false on this input. -/
theorem requeue_sequence_not_preserved :
    (JobScheduler.schedule (JobScheduler.init "main") jobA [] (0, 0) (0, 0)).1.job_queue
        = [((0 : Int), (0 : Nat), jobA)]
    ∧ ((0 : Int), (0 : Nat), jobA) ∉ preemptPost.job_queue
    ∧ ((0 : Int), (2 : Nat), jobA) ∈ preemptPost.job_queue := by
  decide

/-- C7 amended: the preemption path re-queues the preempted job with its
priority unchanged but under a fresh submission sequence number — the next
value of the scheduler's generator, strictly greater than every other
sequence number in the queue — rather than its original one, so among
equal-priority jobs the resumed job is ordered after all previously queued
jobs, not ahead of them. -/
theorem requeue_uses_fresh_sequence (st : SchedState) (a j : Job)
    (cs : List Frame) (rt wt : Rat × Rat)
    (ha : st.active_job = some a) (hlt : a.priority < j.priority)
    (hwf : ∀ e ∈ st.job_queue, e.2.1 < st.job_idx_gen) :
    (-a.priority, st.job_idx_gen + 1, a) ∈
        (JobScheduler.schedule st j cs rt wt).1.job_queue
    ∧ ∀ e ∈ (JobScheduler.schedule st j cs rt wt).1.job_queue,
        e.2.1 ≠ st.job_idx_gen + 1 → e.2.1 < st.job_idx_gen + 1 := by
  rw [schedule_preempt_eq st a j cs rt wt ha hlt]
  constructor
  · simp [heappush]
  · intro e he hne
    simp only [heappush, List.mem_append, List.mem_singleton] at he
    rcases he with (he | he) | he
    · exact Nat.lt_succ_of_lt (hwf e he)
    · subst he
      exact Nat.lt_succ_self _
    · subst he
      exact absurd rfl hne

/-- Witness for C7 amended, at the concrete preemption scenario. -/
theorem requeue_uses_fresh_sequence_witness :
    ((-jobA.priority, (2 : Nat), jobA) ∈ preemptPost.job_queue)
    ∧ ∀ e ∈ preemptPost.job_queue, e.2.1 ≠ 2 → e.2.1 < 2 :=
  requeue_uses_fresh_sequence stPop7 jobA jobB [] (0, 0) (0, 0)
    (by decide) (by decide) (by decide)

theorem warning_not_mem_errLogs (j : Job) (exc : String) (f : String)
    (i : Nat) (ms maxMs : Rat) :
    Event.warningUnstoppableTook f i ms maxMs ∉ errLogs j exc := by
  intro h
  rw [errLogs] at h
  rcases List.mem_cons.mp h with h | h
  · exact Event.noConfusion h
  rcases List.mem_append.mp h with h | h
  · obtain ⟨p, hp, he⟩ := List.mem_map.mp h
    exact Event.noConfusion he
  rcases List.mem_cons.mp h with h | h
  · exact Event.noConfusion h
  obtain ⟨p, hp, he⟩ := List.mem_map.mp h
  exact Event.noConfusion he

/-- C4 (code bug): every call to `cancel` raises `NameError` — jobs.py line
263-264 formats the unbound name `job` instead of the parameter
`target_job` — so cancelling a job absent from the queue and active slot
raises instead of completing as a no-op (and cancelling a queued job never
removes it).  Had the logging line been correct, the rest of the body
(`_cancel_matching_jobs` with the identity condition, `cancel_body` here)
would have given the claimed behaviour for an absent job: queue unchanged,
no stop requests, no error. -/
theorem cancel_raises_name_error :
    JobScheduler.cancel (JobScheduler.init "main") jobB
        = Except.error (PyError.nameError "job")
    ∧ JobScheduler.cancel stWithQueue jobB
        = Except.error (PyError.nameError "job")
    ∧ (JobScheduler.cancel_body stWithQueue jobB (0, 0) (0, 0)).1.job_queue
        = stWithQueue.job_queue
    ∧ (JobScheduler.cancel_body stWithQueue jobB (0, 0) (0, 0)).2 = [] := by
  decide

/-- C5 (code bug): with the three `factoryB` jobs queued at priority 0 and
none active, `cancel_all(factoryB)` leaves the second-submitted job `jF1` in
the queue — the removal loop mutates the list it is iterating, so after
removing the first job the iterator skips the element that shifted into its
place — and that job is then executed when the queue drains; the claimed
postcondition (queue ends empty, none of the three executes) fails. -/
theorem cancel_all_skips_second_job :
    (JobScheduler.cancel_all stThree factoryB (0, 0) (0, 0)).1.job_queue
        = [(0, 1, jF1)]
    ∧ executedRefs
        (JobScheduler.run_all
          (JobScheduler.cancel_all stThree factoryB (0, 0) (0, 0)).1 0 0)
        = [jF1.ref] := by
  have h1 : (JobScheduler.cancel_all stThree factoryB (0, 0) (0, 0)).1.job_queue
      = [(0, 1, jF1)] := by decide
  refine ⟨h1, ?_⟩
  rw [run_all_eq_blocks, executedRefs_blocks, h1]
  decide

/-- C6 (code bug): jobs.py line 176 computes `diff = start - stop`, which is
never positive for real timestamps, so the classification at line 177
always takes the debug branch: whatever the job's `can_stop` flag and
however long `do()` ran, the worker never emits the over-budget warning,
contradicting the claimed classification of over-budget unstoppable runs. -/
theorem worker_never_logs_overbudget (st : SchedState) (t0 t1 : Rat)
    (h : t0 ≤ t1) :
    ∀ f i ms maxMs,
      Event.warningUnstoppableTook f i ms maxMs ∉
        (JobScheduler.run_finish_active st t0 t1).2 := by
  intro f i ms maxMs hmem
  rcases hact : st.active_job with _ | j
  · simp [JobScheduler.run_finish_active, hact] at hmem
  · simp only [run_finish_active_eq st j t0 t1 hact] at hmem
    have hcond : j.can_stop = true ∨
        t0 - t1 ≤ Job.MAX_TIME_FOR_UNSTOPPABLE_JOB := by
      right
      rw [Job.MAX_TIME_FOR_UNSTOPPABLE_JOB]
      linarith
    rw [jobEvents_def, if_pos hcond] at hmem
    rcases List.mem_cons.mp hmem with h1 | h1
    · exact Event.noConfusion h1
    rcases List.mem_append.mp h1 with h2 | h2
    · rcases hres : j.do_result with exc | u
      · rw [hres] at h2
        exact warning_not_mem_errLogs j exc f i ms maxMs h2
      · rw [hres] at h2
        exact List.not_mem_nil _ h2
    · have h3 := List.mem_singleton.mp h2
      exact Event.noConfusion h3

/-- Witness for C6: non-stoppable `jobB` is active and its `do()` took a
full second (`t0 = 0`, `t1 = 1`, double the budget); the over-budget
warning the claim requires is not emitted — instead the debug line is
logged, with the negative duration `-1000` ms that line 176 produces. -/
theorem worker_never_logs_overbudget_witness :
    Event.warningUnstoppableTook "render" 1 (-1000) 500 ∉
        (JobScheduler.run_finish_active (stActive jobB) 0 1).2
    ∧ Event.debugJobTook "render" 1 (-1000) ∈
        (JobScheduler.run_finish_active (stActive jobB) 0 1).2 := by
  refine ⟨worker_never_logs_overbudget (stActive jobB) 0 1 (by norm_num)
      "render" 1 (-1000) 500, ?_⟩
  have hact : (stActive jobB).active_job = some jobB := rfl
  simp only [run_finish_active_eq _ jobB 0 1 hact]
  have hcond : jobB.can_stop = true ∨
      (0 : Rat) - 1 ≤ Job.MAX_TIME_FOR_UNSTOPPABLE_JOB :=
    Or.inr (by rw [Job.MAX_TIME_FOR_UNSTOPPABLE_JOB]; norm_num)
  rw [jobEvents_def, if_pos hcond]
  refine List.mem_cons_of_mem _ (List.mem_append_right _ ?_)
  have hms : ((0 : Rat) - 1) * 1000 = -1000 := by norm_num
  have hname : jobB.factory.name = "render" := rfl
  have hid : jobB.id = 1 := rfl
  rw [hms, hname, hid]
  exact List.mem_singleton.mpr rfl

/-- C8 counterexample: on a freshly constructed scheduler (`running =
false`, never started), `schedule` fails no precondition check: the call
returns successfully and the job is enqueued — refuting the claim that
scheduling before `start()` is a fatal precondition violation. -/
theorem schedule_before_start_not_fatal :
    (JobScheduler.init "main").running = false
    ∧ (JobScheduler.scheduleE (JobScheduler.init "main") jobA [] (0, 0) (0, 0)).isOk
        = true
    ∧ (JobScheduler.schedule (JobScheduler.init "main") jobA [] (0, 0) (0, 0)).1.job_queue
        = [((0 : Int), (0 : Nat), jobA)] := by
  decide

/-- C8 amended: `start()` on a running scheduler and `stop()` on a
non-running scheduler fail as assertion errors, as claimed; `schedule(job)`
before `start()`, however, performs no precondition check — it completes
normally and merely enqueues the job, which waits until the scheduler is
started. -/
theorem protocol_misuse_asserts (st : SchedState) (j : Job) (cs : List Frame)
    (rt wt : Rat × Rat) :
    (st.running = true →
      JobScheduler.start st = Except.error PyError.assertionError)
    ∧ (st.running = false →
      JobScheduler.stop st = Except.error PyError.assertionError)
    ∧ JobScheduler.scheduleE st j cs rt wt
        = Except.ok (JobScheduler.schedule st j cs rt wt) := by
  refine ⟨?_, ?_, rfl⟩
  · intro h
    simp [JobScheduler.start, h]
  · intro h
    simp [JobScheduler.stop, h]

/-- Witness for C8 amended: a started scheduler rejects `start()`, a fresh
scheduler rejects `stop()`. -/
theorem protocol_misuse_asserts_witness :
    JobScheduler.start stStarted = Except.error PyError.assertionError
    ∧ JobScheduler.stop (JobScheduler.init "main")
        = Except.error PyError.assertionError :=
  ⟨(protocol_misuse_asserts stStarted jobA [] (0, 0) (0, 0)).1 rfl,
   (protocol_misuse_asserts (JobScheduler.init "main") jobA [] (0, 0) (0, 0)).2.1
      rfl⟩

end Paperwork
